import Mathlib

/-
Shallow embedding of the validator duties scheduler
(src/validator_client/src/duties_service.rs) of the lighthouse repository.

Public keys, slots, epochs and selection-proof data are modelled as Nat.
The two-level keyed cache (HashMap over HashMap) is modelled as an
association list of association lists; HashMap lookup, in-place value
mutation and fresh-key insertion become lookupKey, updateKey and append.
The RwLock and the futures chain are sequentialised: every operation takes
the store as an argument and returns the new store.
-/

namespace Duties

/-- Model of rest_types ValidatorDuty: the per-validator assignment for one
epoch, as received from the beacon node. -/
structure ValidatorDuty where
  validator_pubkey : Nat
  validator_index : Option Nat
  attestation_slot : Option Nat
  attestation_committee_index : Option Nat
  attestation_committee_position : Option Nat
  block_proposal_slots : List Nat
  aggregator_modulo : Option Nat
deriving DecidableEq, Repr

/-- DutyAndProof from duties_service.rs: a duty plus the optional memoized
selection proof. The proof value itself is opaque and modelled as a Nat. -/
structure DutyAndProof where
  duty : ValidatorDuty
  selection_proof : Option Nat
deriving DecidableEq, Repr

/-- Modelled from the spec: the ValidatorStore interface (section 6.1) and the
SelectionProof operation is_aggregator_from_modulo (section 3) live outside the
provided source slice, so both are modelled as abstract functions. The store
maps (pubkey, slot) to an optional proof, where none signals an unknown
pubkey; is_aggregator_from_modulo maps (proof, modulo) to a boolean or an
arithmetic error. -/
structure ValidatorStore where
  produce_selection_proof : Nat → Nat → Option Nat
  is_aggregator_from_modulo : Nat → Nat → Except String Bool

/-- Modelled from the spec: Slot::epoch of the types crate (not in the source
slice); an epoch is a fixed multiple of slots, so the epoch of a slot is the
slot divided by slots_per_epoch. -/
def slotEpoch (slot slots_per_epoch : Nat) : Nat :=
  slot / slots_per_epoch

/-- duties_match_epoch from duties_service.rs: true iff the attestation slot,
when present, is from the given epoch, and every block proposal slot is from
the given epoch. -/
def duties_match_epoch (duties : ValidatorDuty) (epoch slots_per_epoch : Nat) : Bool :=
  (match duties.attestation_slot with
   | none => true
   | some slot => decide (slotEpoch slot slots_per_epoch = epoch))
  && duties.block_proposal_slots.all fun slot =>
       decide (slotEpoch slot slots_per_epoch = epoch)

/-- DutyAndProof::compute_selection_proof. When aggregator_modulo or
attestation_slot is absent the proof is set to none and the call succeeds;
otherwise the validator store is asked for a proof (failing when the pubkey is
unknown) and the proof is kept exactly when is_aggregator_from_modulo returns
true. -/
def compute_selection_proof (validator_store : ValidatorStore) (dp : DutyAndProof) :
    Except String DutyAndProof :=
  match dp.duty.aggregator_modulo, dp.duty.attestation_slot with
  | some modulo, some slot =>
    match validator_store.produce_selection_proof dp.duty.validator_pubkey slot with
    | none => .error ("Validator pubkey missing from store")
    | some selection_proof =>
      match validator_store.is_aggregator_from_modulo selection_proof modulo with
      | .error e => .error ("Invalid modulo: " ++ e)
      | .ok is_agg =>
        .ok { dp with selection_proof := if is_agg then some selection_proof else none }
  | _, _ => .ok { dp with selection_proof := none }

/-- DutyAndProof::selection_proof_eq: the inputs to the selection-proof
computation agree. -/
def selection_proof_eq (a b : DutyAndProof) : Bool :=
  decide (a.duty.aggregator_modulo = b.duty.aggregator_modulo)
  && decide (a.duty.attestation_slot = b.duty.attestation_slot)

/-- DutyAndProof::subscription_eq: the two duties would produce the same
beacon subscription. -/
def subscription_eq (a b : DutyAndProof) : Bool :=
  selection_proof_eq a b
  && decide (a.duty.validator_index = b.duty.validator_index)
  && decide (a.duty.attestation_committee_index = b.duty.attestation_committee_index)
  && decide (a.duty.attestation_slot = b.duty.attestation_slot)

/-- InsertOutcome from duties_service.rs. -/
inductive InsertOutcome where
  | NewValidator
  | NewEpoch
  | Identical
  | Replaced (should_resubscribe : Bool)
  | Invalid
deriving DecidableEq, Repr

/-- InsertOutcome::is_subscription_candidate. -/
def InsertOutcome.is_subscription_candidate : InsertOutcome → Bool
  | .Replaced should_resubscribe => should_resubscribe
  | .NewValidator => true
  | .NewEpoch => true
  | .Identical => false
  | .Invalid => false

/-- The two-level cache: pubkey to (epoch to DutyAndProof). -/
abbrev BaseHashMap := List (Nat × List (Nat × DutyAndProof))

/-- First-occurrence lookup in an association list (HashMap get). -/
def lookupKey {α : Type} (k : Nat) : List (Nat × α) → Option α
  | [] => none
  | (k', v) :: rest => if k' = k then some v else lookupKey k rest

/-- Replace the value at the first occurrence of a key (mutation through
HashMap get_mut); leaves the list unchanged when the key is absent. -/
def updateKey {α : Type} (k : Nat) (v : α) : List (Nat × α) → List (Nat × α)
  | [] => []
  | (k', v') :: rest =>
    if k' = k then (k', v) :: rest else (k', v') :: updateKey k v rest

/-- DutiesStore::insert. Mirrors the source statement order: the epoch check
first, then the two nested lookups; in every mutating branch the selection
proof is computed before any write, and an error from that computation
returns early with the store untouched. -/
def DutiesStore.insert (store : BaseHashMap) (epoch : Nat) (duties : DutyAndProof)
    (slots_per_epoch : Nat) (validator_store : ValidatorStore) :
    Except String InsertOutcome × BaseHashMap :=
  if !(duties_match_epoch duties.duty epoch slots_per_epoch) then
    (.ok .Invalid, store)
  else
    match lookupKey duties.duty.validator_pubkey store with
    | some validator_map =>
      match lookupKey epoch validator_map with
      | some known_duties =>
        if known_duties.duty = duties.duty then
          (.ok .Identical, store)
        else
          match compute_selection_proof validator_store duties with
          | .error e => (.error e, store)
          | .ok duties' =>
            (.ok (.Replaced (subscription_eq duties' known_duties)),
             updateKey duties'.duty.validator_pubkey
               (updateKey epoch duties' validator_map) store)
      | none =>
        match compute_selection_proof validator_store duties with
        | .error e => (.error e, store)
        | .ok duties' =>
          (.ok .NewEpoch,
           updateKey duties'.duty.validator_pubkey
             (validator_map ++ [(epoch, duties')]) store)
    | none =>
      match compute_selection_proof validator_store duties with
      | .error e => (.error e, store)
      | .ok duties' =>
        (.ok .NewValidator, store ++ [(duties'.duty.validator_pubkey, [(epoch, duties')])])

/-- DutiesStore::prune: drop every inner entry with epoch below prior_to, then
drop every pubkey whose inner map became empty. -/
def DutiesStore.prune (store : BaseHashMap) (prior_to : Nat) : BaseHashMap :=
  (store.map fun pv => (pv.1, pv.2.filter fun ed => decide (prior_to ≤ ed.1))).filter
    fun pv => !pv.2.isEmpty

/-- Model of rest_types ValidatorSubscription, with the fields used here. -/
structure ValidatorSubscription where
  validator_index : Nat
  attestation_committee_index : Nat
  slot : Nat
  is_aggregator : Bool
deriving DecidableEq, Repr

/-- The TryInto conversion from remote duties to a local DutyAndProof: the
selection proof always starts as none (pubkey decoding, which can fail, is
outside the model: duties are already converted). -/
def duty_try_into (duty : ValidatorDuty) : DutyAndProof :=
  { duty := duty, selection_proof := none }

/-- The per-duty body of the filter_map in DutiesService::update_epoch:
convert, insert into the store, and for subscription-candidate outcomes with
all three required fields present emit a ValidatorSubscription. The
is_aggregator flag is read from the local pre-insert copy of the duties, as
in the source. -/
def update_epoch_step (store : BaseHashMap) (epoch slots_per_epoch : Nat)
    (validator_store : ValidatorStore) (remote : ValidatorDuty) :
    BaseHashMap × Option ValidatorSubscription :=
  let duties := duty_try_into remote
  match DutiesStore.insert store epoch duties slots_per_epoch validator_store with
  | (.error _, store') => (store', none)
  | (.ok outcome, store') =>
    if outcome.is_subscription_candidate then
      match duties.duty.validator_index, duties.duty.attestation_committee_index,
            duties.duty.attestation_slot with
      | some vi, some ci, some sl =>
        (store', some { validator_index := vi, attestation_committee_index := ci,
                        slot := sl, is_aggregator := duties.selection_proof.isSome })
      | _, _, _ => (store', none)
    else (store', none)

/-- DutiesService::update_epoch over a list of remote duties: sequential
inserts against the shared store, collecting the emitted subscriptions. -/
def update_epoch_all (store : BaseHashMap) (epoch slots_per_epoch : Nat)
    (validator_store : ValidatorStore) (all_duties : List ValidatorDuty) :
    BaseHashMap × List ValidatorSubscription :=
  match all_duties with
  | [] => (store, [])
  | d :: rest =>
    let step := update_epoch_step store epoch slots_per_epoch validator_store d
    let tail := update_epoch_all step.1 epoch slots_per_epoch validator_store rest
    (tail.1, step.2.toList ++ tail.2)

/-- PRUNE_DEPTH from duties_service.rs. -/
def PRUNE_DEPTH : Nat := 4

/-- Modelled from the spec: subtraction on the Epoch type of the types crate
(not in the source slice) saturates at zero, which over Nat is exactly
truncated subtraction. -/
def epochSub (a b : Nat) : Nat := a - b

/-- The pruning phase of DutiesService::do_update: on the first slot of an
epoch, prune below the current epoch minus PRUNE_DEPTH. -/
def do_update_prune (store : BaseHashMap) (slot slots_per_epoch : Nat) : BaseHashMap :=
  if slot % slots_per_epoch = 0 then
    DutiesStore.prune store (epochSub (slotEpoch slot slots_per_epoch) PRUNE_DEPTH)
  else store

/-- One tick of DutiesService::do_update, sequentialised. The slot clock and
the beacon head are inputs; get_duties is a function from an epoch to the
remote duties the beacon node would return for it. The result carries the
final store, the list of epochs for which get_duties was invoked, and whether
the not-synced error was logged. Pruning happens before the sync gate, as in
the source. -/
def do_update_tick (store : BaseHashMap) (slot slots_per_epoch head_slot : Nat)
    (allow_unsynced_beacon_node : Bool) (validator_store : ValidatorStore)
    (get_duties : Nat → List ValidatorDuty) : BaseHashMap × List Nat × Bool :=
  let epoch := slotEpoch slot slots_per_epoch
  let store1 := do_update_prune store slot slots_per_epoch
  let beacon_head_epoch := slotEpoch head_slot slots_per_epoch
  if beacon_head_epoch + 1 < epoch ∧ allow_unsynced_beacon_node = false then
    (store1, [], true)
  else
    let s1 := (update_epoch_all store1 epoch slots_per_epoch validator_store
                 (get_duties epoch)).1
    let s2 := (update_epoch_all s1 (epoch + 1) slots_per_epoch validator_store
                 (get_duties (epoch + 1))).1
    (s2, [epoch, epoch + 1], false)

/-- Entry membership in the two-level store: pubkey p holds duty dp at epoch
e. -/
def mem_store (s : BaseHashMap) (p e : Nat) (dp : DutyAndProof) : Prop :=
  ∃ vm, (p, vm) ∈ s ∧ (e, dp) ∈ vm

/-- An abstract store operation, for reachability arguments. -/
inductive StoreOp where
  | insertOp (epoch : Nat) (duties : DutyAndProof) (vs : ValidatorStore)
  | pruneOp (prior_to : Nat)

/-- Apply one operation to the store; a failing insert leaves the store as
the insert returned it (unchanged). -/
def applyOp (slots_per_epoch : Nat) (store : BaseHashMap) : StoreOp → BaseHashMap
  | .insertOp epoch duties vs => (DutiesStore.insert store epoch duties slots_per_epoch vs).2
  | .pruneOp prior_to => DutiesStore.prune store prior_to

/-- Every stored entry matches the epoch it is keyed under. -/
def store_wf (slots_per_epoch : Nat) (store : BaseHashMap) : Prop :=
  ∀ pv ∈ store, ∀ ed ∈ pv.2, duties_match_epoch (ed.2).duty ed.1 slots_per_epoch = true

/-- Concrete aggregator duty for exercising update_epoch: epoch 10 with
slots_per_epoch 8, so slot 83 is inside the epoch; aggregator_modulo is 16
as in the aggregator-election walkthrough. -/
def c1_duty : ValidatorDuty :=
  { validator_pubkey := 1, validator_index := some 0, attestation_slot := some 83,
    attestation_committee_index := some 0, attestation_committee_position := some 0,
    block_proposal_slots := [], aggregator_modulo := some 16 }

/-- A validator store that always produces proof 7 and always elects the
validator as an aggregator. -/
def c1_vs : ValidatorStore :=
  { produce_selection_proof := fun _ _ => some 7,
    is_aggregator_from_modulo := fun _ _ => Except.ok true }

/-- Existing stored duty for the replacement walkthrough. -/
def c2_known : DutyAndProof :=
  { duty := { validator_pubkey := 4, validator_index := some 2, attestation_slot := some 6,
              attestation_committee_index := some 1, attestation_committee_position := some 0,
              block_proposal_slots := [], aggregator_modulo := none },
    selection_proof := none }

/-- Incoming duty differing from c2_known only in attestation_slot. -/
def c2_new : DutyAndProof :=
  { duty := { validator_pubkey := 4, validator_index := some 2, attestation_slot := some 7,
              attestation_committee_index := some 1, attestation_committee_position := some 0,
              block_proposal_slots := [], aggregator_modulo := none },
    selection_proof := none }

def c2_store : BaseHashMap := [(4, [(0, c2_known)])]

def c2_vs : ValidatorStore :=
  { produce_selection_proof := fun _ _ => some 1,
    is_aggregator_from_modulo := fun _ _ => Except.ok false }

def c3_duty : ValidatorDuty :=
  { validator_pubkey := 5, validator_index := some 3, attestation_slot := some 2,
    attestation_committee_index := some 0, attestation_committee_position := some 0,
    block_proposal_slots := [], aggregator_modulo := none }

def c3_vs : ValidatorStore :=
  { produce_selection_proof := fun _ _ => none,
    is_aggregator_from_modulo := fun _ _ => Except.ok false }

def c4_dp : DutyAndProof :=
  { duty := { validator_pubkey := 7, validator_index := some 0, attestation_slot := some 1,
              attestation_committee_index := some 0, attestation_committee_position := some 0,
              block_proposal_slots := [], aggregator_modulo := none },
    selection_proof := none }

def c4_vs : ValidatorStore :=
  { produce_selection_proof := fun _ _ => none,
    is_aggregator_from_modulo := fun _ _ => Except.ok false }

def c5_dp : DutyAndProof :=
  { duty := { validator_pubkey := 6, validator_index := some 4, attestation_slot := some 0,
              attestation_committee_index := some 2, attestation_committee_position := some 0,
              block_proposal_slots := [], aggregator_modulo := none },
    selection_proof := none }

def c5_vs : ValidatorStore :=
  { produce_selection_proof := fun _ _ => none,
    is_aggregator_from_modulo := fun _ _ => Except.ok false }

/-- A second, different validator store, witnessing that the repeated insert
consults no validator store. -/
def c5_vs2 : ValidatorStore :=
  { produce_selection_proof := fun _ _ => some 42,
    is_aggregator_from_modulo := fun _ _ => Except.error ("bad") }

def c6_dp : DutyAndProof :=
  { duty := { validator_pubkey := 8, validator_index := none, attestation_slot := none,
              attestation_committee_index := none, attestation_committee_position := none,
              block_proposal_slots := [], aggregator_modulo := none },
    selection_proof := none }

def c7_dp : DutyAndProof :=
  { duty := { validator_pubkey := 9, validator_index := none, attestation_slot := none,
              attestation_committee_index := none, attestation_committee_position := none,
              block_proposal_slots := [], aggregator_modulo := none },
    selection_proof := none }

def c8_dp : DutyAndProof :=
  { duty := { validator_pubkey := 1, validator_index := none, attestation_slot := none,
              attestation_committee_index := none, attestation_committee_position := none,
              block_proposal_slots := [], aggregator_modulo := none },
    selection_proof := none }

/-- A store holding one entry at epoch 10, pruned away at an epoch-20
boundary tick. -/
def c8_store : BaseHashMap := [(1, [(10, c8_dp)])]

def c8_vs : ValidatorStore :=
  { produce_selection_proof := fun _ _ => none,
    is_aggregator_from_modulo := fun _ _ => Except.ok false }

def c8_fetch : Nat → List ValidatorDuty := fun _ => []

def c9_dp : DutyAndProof :=
  { duty := { validator_pubkey := 2, validator_index := some 1, attestation_slot := some 5,
              attestation_committee_index := some 0, attestation_committee_position := some 0,
              block_proposal_slots := [], aggregator_modulo := some 3 },
    selection_proof := none }

def c9_vs : ValidatorStore :=
  { produce_selection_proof := fun _ _ => some 9,
    is_aggregator_from_modulo := fun _ _ => Except.ok true }

def c10_dp : DutyAndProof :=
  { duty := { validator_pubkey := 3, validator_index := some 5, attestation_slot := some 0,
              attestation_committee_index := some 0, attestation_committee_position := some 0,
              block_proposal_slots := [], aggregator_modulo := some 2 },
    selection_proof := none }

/-- A validator store that knows no pubkey, so selection-proof computation
fails. -/
def c10_vs : ValidatorStore :=
  { produce_selection_proof := fun _ _ => none,
    is_aggregator_from_modulo := fun _ _ => Except.ok false }

/-- compute_selection_proof never changes the duty itself, only the proof. -/
theorem compute_selection_proof_duty (vs : ValidatorStore) (dp dp' : DutyAndProof)
    (h : compute_selection_proof vs dp = .ok dp') : dp'.duty = dp.duty := by
  unfold compute_selection_proof at h
  cases hm : dp.duty.aggregator_modulo with
  | none =>
    simp only [hm, Except.ok.injEq] at h
    rw [← h]
  | some m =>
    cases hs : dp.duty.attestation_slot with
    | none =>
      simp only [hm, hs, Except.ok.injEq] at h
      rw [← h]
    | some sl =>
      simp only [hm, hs] at h
      cases hps : vs.produce_selection_proof dp.duty.validator_pubkey sl with
      | none =>
        simp only [hps] at h
        exact Except.noConfusion h
      | some sp =>
        simp only [hps] at h
        cases hia : vs.is_aggregator_from_modulo sp m with
        | error e =>
          simp only [hia] at h
          exact Except.noConfusion h
        | ok b =>
          simp only [hia, Except.ok.injEq] at h
          rw [← h]

theorem lookupKey_cons {α : Type} (k k' : Nat) (v : α) (l : List (Nat × α)) :
    lookupKey k ((k', v) :: l) = if k' = k then some v else lookupKey k l := rfl

theorem updateKey_cons {α : Type} (k k' : Nat) (v v' : α) (l : List (Nat × α)) :
    updateKey k v ((k', v') :: l)
      = if k' = k then (k', v) :: l else (k', v') :: updateKey k v l := rfl

theorem lookupKey_cons_self {α : Type} (k : Nat) (v : α) (l : List (Nat × α)) :
    lookupKey k ((k, v) :: l) = some v := by
  rw [lookupKey_cons, if_pos rfl]

theorem lookupKey_updateKey_of_some {α : Type} (k : Nat) (v w : α) (l : List (Nat × α))
    (h : lookupKey k l = some w) : lookupKey k (updateKey k v l) = some v := by
  induction l with
  | nil => exact Option.noConfusion h
  | cons a rest ih =>
    obtain ⟨k', v'⟩ := a
    by_cases hk : k' = k
    · subst hk
      rw [updateKey_cons, if_pos rfl]
      exact lookupKey_cons_self _ _ _
    · rw [lookupKey_cons, if_neg hk] at h
      rw [updateKey_cons, if_neg hk, lookupKey_cons, if_neg hk]
      exact ih h

theorem lookupKey_append_of_none {α : Type} (k : Nat) (l1 l2 : List (Nat × α))
    (h : lookupKey k l1 = none) : lookupKey k (l1 ++ l2) = lookupKey k l2 := by
  induction l1 with
  | nil => rfl
  | cons a rest ih =>
    obtain ⟨k', v'⟩ := a
    rw [lookupKey_cons] at h
    by_cases hk : k' = k
    · rw [if_pos hk] at h
      exact Option.noConfusion h
    · rw [if_neg hk] at h
      rw [List.cons_append, lookupKey_cons, if_neg hk]
      exact ih h

theorem lookupKey_mem {α : Type} (k : Nat) (v : α) (l : List (Nat × α))
    (h : lookupKey k l = some v) : (k, v) ∈ l := by
  induction l with
  | nil => exact Option.noConfusion h
  | cons a rest ih =>
    obtain ⟨k', v'⟩ := a
    rw [lookupKey_cons] at h
    by_cases hk : k' = k
    · subst hk
      rw [if_pos rfl] at h
      cases h
      exact List.mem_cons_self _ _
    · rw [if_neg hk] at h
      exact List.mem_cons_of_mem _ (ih h)

theorem mem_updateKey {α : Type} (k : Nat) (v : α) (l : List (Nat × α)) (x : Nat × α)
    (h : x ∈ updateKey k v l) : x = (k, v) ∨ x ∈ l := by
  induction l with
  | nil => exact absurd h (List.not_mem_nil x)
  | cons a rest ih =>
    obtain ⟨k', v'⟩ := a
    rw [updateKey_cons] at h
    by_cases hk : k' = k
    · subst hk
      rw [if_pos rfl] at h
      rcases List.mem_cons.mp h with h | h
      · exact Or.inl h
      · exact Or.inr (List.mem_cons_of_mem _ h)
    · rw [if_neg hk] at h
      rcases List.mem_cons.mp h with h | h
      · exact Or.inr (h ▸ List.mem_cons_self _ _)
      · rcases ih h with h2 | h2
        · exact Or.inl h2
        · exact Or.inr (List.mem_cons_of_mem _ h2)

/-- C9: after a successful compute_selection_proof, the stored proof is
present exactly when the duty had both aggregator_modulo and
attestation_slot, the validator store produced a proof, and
is_aggregator_from_modulo returned true; when modulo or slot is absent the
call succeeds with a none proof for every validator store, consulting none
of them. -/
theorem c9_compute_selection_proof_spec (vs : ValidatorStore) (dp dp' : DutyAndProof)
    (h : compute_selection_proof vs dp = .ok dp') :
    (dp'.selection_proof.isSome = true ↔
      ∃ m sl sp, dp.duty.aggregator_modulo = some m ∧ dp.duty.attestation_slot = some sl
        ∧ vs.produce_selection_proof dp.duty.validator_pubkey sl = some sp
        ∧ vs.is_aggregator_from_modulo sp m = Except.ok true)
    ∧ ((dp.duty.aggregator_modulo = none ∨ dp.duty.attestation_slot = none) →
        ∀ vs' : ValidatorStore,
          compute_selection_proof vs' dp = .ok { dp with selection_proof := none }) := by
  cases hm : dp.duty.aggregator_modulo with
  | none =>
    unfold compute_selection_proof at h
    simp only [hm, Except.ok.injEq] at h
    constructor
    · rw [← h]
      simp
    · intro _ vs'
      unfold compute_selection_proof
      simp [hm]
  | some m =>
    cases hs : dp.duty.attestation_slot with
    | none =>
      unfold compute_selection_proof at h
      simp only [hm, hs, Except.ok.injEq] at h
      constructor
      · rw [← h]
        simp
      · intro _ vs'
        unfold compute_selection_proof
        simp [hm, hs]
    | some sl =>
      constructor
      · unfold compute_selection_proof at h
        simp only [hm, hs] at h
        cases hps : vs.produce_selection_proof dp.duty.validator_pubkey sl with
        | none =>
          simp only [hps] at h
          exact Except.noConfusion h
        | some sp =>
          simp only [hps] at h
          cases hia : vs.is_aggregator_from_modulo sp m with
          | error e =>
            simp only [hia] at h
            exact Except.noConfusion h
          | ok b =>
            simp only [hia, Except.ok.injEq] at h
            subst h
            cases b with
            | true =>
              refine iff_of_true (by simp) ?_
              exact ⟨m, sl, sp, rfl, rfl, hps, hia⟩
            | false =>
              refine iff_of_false (by simp) ?_
              rintro ⟨m2, sl2, sp2, hm2, hs2, hps2, hia2⟩
              cases hm2
              cases hs2
              rw [hps] at hps2
              cases hps2
              rw [hia] at hia2
              cases hia2
      · rintro (hn | hn) vs'
        · exact Option.noConfusion hn
        · exact Option.noConfusion hn

/-- C10: insert is atomic on error: whenever insert returns an error, the
store it returns is exactly the store it was given, because the selection
proof is computed before any write in every branch. -/
theorem c10_insert_atomic_on_error (store : BaseHashMap) (epoch : Nat) (d : DutyAndProof)
    (spe : Nat) (vs : ValidatorStore) (e : String) (s' : BaseHashMap)
    (h : DutiesStore.insert store epoch d spe vs = (.error e, s')) : s' = store := by
  unfold DutiesStore.insert at h
  split at h
  · rw [Prod.mk.injEq] at h
    exact absurd h.1 (fun hc => Except.noConfusion hc)
  · split at h
    · split at h
      · split at h
        · rw [Prod.mk.injEq] at h
          exact absurd h.1 (fun hc => Except.noConfusion hc)
        · split at h
          · rw [Prod.mk.injEq] at h
            exact h.2.symm
          · rw [Prod.mk.injEq] at h
            exact absurd h.1 (fun hc => Except.noConfusion hc)
      · split at h
        · rw [Prod.mk.injEq] at h
          exact h.2.symm
        · rw [Prod.mk.injEq] at h
          exact absurd h.1 (fun hc => Except.noConfusion hc)
    · split at h
      · rw [Prod.mk.injEq] at h
        exact h.2.symm
      · rw [Prod.mk.injEq] at h
        exact absurd h.1 (fun hc => Except.noConfusion hc)

/-- C2: when insert finds an existing entry for the pubkey and epoch whose
duty differs, it computes the new selection proof, returns Replaced with
should_resubscribe = subscription_eq(new, old), stores exactly the new
DutyAndProof, and should_resubscribe holds iff the two duties agree on
aggregator_modulo, attestation_slot, validator_index and
attestation_committee_index. -/
theorem c2_insert_replaced (store : BaseHashMap) (epoch : Nat) (d known : DutyAndProof)
    (vmap : List (Nat × DutyAndProof)) (spe : Nat) (vs : ValidatorStore) (d' : DutyAndProof)
    (hmatch : duties_match_epoch d.duty epoch spe = true)
    (hpk : lookupKey d.duty.validator_pubkey store = some vmap)
    (hep : lookupKey epoch vmap = some known)
    (hne : ¬ known.duty = d.duty)
    (hc : compute_selection_proof vs d = .ok d') :
    DutiesStore.insert store epoch d spe vs =
      (.ok (.Replaced (subscription_eq d' known)),
       updateKey d.duty.validator_pubkey (updateKey epoch d' vmap) store)
    ∧ lookupKey epoch (updateKey epoch d' vmap) = some d'
    ∧ (subscription_eq d' known = true ↔
        (d.duty.aggregator_modulo = known.duty.aggregator_modulo
         ∧ d.duty.attestation_slot = known.duty.attestation_slot
         ∧ d.duty.validator_index = known.duty.validator_index
         ∧ d.duty.attestation_committee_index = known.duty.attestation_committee_index)) := by
  have hd : d'.duty = d.duty := compute_selection_proof_duty vs d d' hc
  refine ⟨?_, lookupKey_updateKey_of_some epoch d' known vmap hep, ?_⟩
  · unfold DutiesStore.insert
    simp only [hmatch, Bool.not_true, Bool.false_eq_true, if_false, hpk, hep,
      if_neg hne, hc, hd]
  · simp only [subscription_eq, selection_proof_eq, hd, Bool.and_eq_true,
      decide_eq_true_eq]
    tauto

/-- C3: in update_epoch, a subscription is emitted for a processed duty iff
the insert outcome is a subscription candidate and validator_index,
attestation_committee_index and attestation_slot are all present. -/
theorem c3_subscription_predicate (store : BaseHashMap) (epoch spe : Nat)
    (vs : ValidatorStore) (remote : ValidatorDuty) (oc : InsertOutcome) (s' : BaseHashMap)
    (h : DutiesStore.insert store epoch (duty_try_into remote) spe vs = (.ok oc, s')) :
    ((update_epoch_step store epoch spe vs remote).2.isSome = true ↔
      (oc.is_subscription_candidate = true
       ∧ remote.validator_index.isSome = true
       ∧ remote.attestation_committee_index.isSome = true
       ∧ remote.attestation_slot.isSome = true)) := by
  unfold update_epoch_step
  simp only [duty_try_into] at h ⊢
  simp only [h]
  cases hoc : oc.is_subscription_candidate with
  | false => simp
  | true =>
    simp only [if_true]
    cases hvi : remote.validator_index with
    | none => simp
    | some vi =>
      cases hci : remote.attestation_committee_index with
      | none => simp
      | some ci =>
        cases hsl : remote.attestation_slot with
        | none => simp
        | some sl => simp

/-- When a byte-equal entry is already present, insert returns Identical with
the store untouched, for every validator store. -/
theorem insert_identical (store : BaseHashMap) (epoch : Nat) (d known : DutyAndProof)
    (vmap : List (Nat × DutyAndProof)) (spe : Nat) (vs : ValidatorStore)
    (hmatch : duties_match_epoch d.duty epoch spe = true)
    (hpk : lookupKey d.duty.validator_pubkey store = some vmap)
    (hep : lookupKey epoch vmap = some known)
    (heq : known.duty = d.duty) :
    DutiesStore.insert store epoch d spe vs = (.ok .Identical, store) := by
  unfold DutiesStore.insert
  simp only [hmatch, Bool.not_true, Bool.false_eq_true, if_false, hpk, hep, if_pos heq]

/-- C5: insertion idempotence: after any accepted (non-Invalid) insert of a
duty, inserting the same duty again returns Identical and leaves the store
unchanged, and does so for every validator store, so no selection proof is
recomputed. -/
theorem c5_insert_idempotent (store : BaseHashMap) (epoch : Nat) (d : DutyAndProof)
    (spe : Nat) (vs : ValidatorStore) (oc : InsertOutcome) (s1 : BaseHashMap)
    (h : DutiesStore.insert store epoch d spe vs = (.ok oc, s1))
    (hoc : ¬ oc = InsertOutcome.Invalid) :
    ∀ vs' : ValidatorStore, DutiesStore.insert s1 epoch d spe vs' = (.ok .Identical, s1) := by
  intro vs'
  unfold DutiesStore.insert at h
  by_cases hmatch : duties_match_epoch d.duty epoch spe = true
  case neg =>
    rw [Bool.not_eq_true] at hmatch
    simp only [hmatch, Bool.not_false, if_true, Prod.mk.injEq] at h
    obtain ⟨h1, h2⟩ := h
    cases h1
    exact absurd rfl hoc
  case pos =>
    simp only [hmatch, Bool.not_true, Bool.false_eq_true, if_false] at h
    cases hpk : lookupKey d.duty.validator_pubkey store with
    | some vmap =>
      simp only [hpk] at h
      cases hep : lookupKey epoch vmap with
      | some known =>
        simp only [hep] at h
        by_cases hkd : known.duty = d.duty
        · rw [if_pos hkd, Prod.mk.injEq] at h
          obtain ⟨h1, h2⟩ := h
          subst h2
          exact insert_identical store epoch d known vmap spe vs' hmatch hpk hep hkd
        · rw [if_neg hkd] at h
          cases hc : compute_selection_proof vs d with
          | error e =>
            simp only [hc, Prod.mk.injEq] at h
            exact absurd h.1 (fun hcon => Except.noConfusion hcon)
          | ok d' =>
            have hd : d'.duty = d.duty := compute_selection_proof_duty vs d d' hc
            simp only [hc, Prod.mk.injEq, hd] at h
            obtain ⟨h1, h2⟩ := h
            subst h2
            exact insert_identical _ epoch d d' (updateKey epoch d' vmap) spe vs' hmatch
              (lookupKey_updateKey_of_some _ _ vmap store hpk)
              (lookupKey_updateKey_of_some epoch d' known vmap hep) hd
      | none =>
        simp only [hep] at h
        cases hc : compute_selection_proof vs d with
        | error e =>
          simp only [hc, Prod.mk.injEq] at h
          exact absurd h.1 (fun hcon => Except.noConfusion hcon)
        | ok d' =>
          have hd : d'.duty = d.duty := compute_selection_proof_duty vs d d' hc
          simp only [hc, Prod.mk.injEq, hd] at h
          obtain ⟨h1, h2⟩ := h
          subst h2
          exact insert_identical _ epoch d d' (vmap ++ [(epoch, d')]) spe vs' hmatch
            (lookupKey_updateKey_of_some _ _ vmap store hpk)
            ((lookupKey_append_of_none epoch vmap [(epoch, d')] hep).trans
              (lookupKey_cons_self epoch d' [])) hd
    | none =>
      simp only [hpk] at h
      cases hc : compute_selection_proof vs d with
      | error e =>
        simp only [hc, Prod.mk.injEq] at h
        exact absurd h.1 (fun hcon => Except.noConfusion hcon)
      | ok d' =>
        have hd : d'.duty = d.duty := compute_selection_proof_duty vs d d' hc
        simp only [hc, Prod.mk.injEq, hd] at h
        obtain ⟨h1, h2⟩ := h
        subst h2
        exact insert_identical _ epoch d d' [(epoch, d')] spe vs' hmatch
          ((lookupKey_append_of_none _ store _ hpk).trans
            (lookupKey_cons_self _ [(epoch, d')] []))
          (lookupKey_cons_self epoch d' []) hd

/-- Characterisation of membership after a prune: an entry survives iff it
was present and its epoch is at least the bound. -/
theorem mem_store_prune (s : BaseHashMap) (E p e : Nat) (dp : DutyAndProof) :
    mem_store (DutiesStore.prune s E) p e dp ↔ (mem_store s p e dp ∧ E ≤ e) := by
  unfold DutiesStore.prune mem_store
  constructor
  · rintro ⟨vm', hmem, hed⟩
    rw [List.mem_filter] at hmem
    obtain ⟨hmap, hne⟩ := hmem
    rw [List.mem_map] at hmap
    obtain ⟨pv, hpv, hmk⟩ := hmap
    simp only [Prod.mk.injEq] at hmk
    obtain ⟨hp1, hv1⟩ := hmk
    rw [← hv1] at hed
    have hed2 := List.mem_filter.mp hed
    refine ⟨⟨pv.2, ?_, hed2.1⟩, ?_⟩
    · rw [← hp1, Prod.mk.eta]
      exact hpv
    · simpa using hed2.2
  · rintro ⟨⟨vm, hvm, hed⟩, hle⟩
    have hmemf : (e, dp) ∈ vm.filter (fun ed => decide (E ≤ ed.1)) :=
      List.mem_filter.mpr ⟨hed, by simpa using hle⟩
    refine ⟨vm.filter (fun ed => decide (E ≤ ed.1)), List.mem_filter.mpr ⟨?_, ?_⟩, hmemf⟩
    · exact List.mem_map.mpr ⟨(p, vm), hvm, rfl⟩
    · cases hfe : vm.filter (fun ed => decide (E ≤ ed.1)) with
      | nil =>
        rw [hfe] at hmemf
        exact absurd hmemf (List.not_mem_nil _)
      | cons a l => rfl

/-- C6: prune soundness: after prune(prior_to = E) every remaining entry has
epoch at least E, every entry below E is gone, no pubkey keeps an empty
inner mapping, and entries at or above E are exactly those of the original
store. -/
theorem c6_prune_spec (store : BaseHashMap) (E : Nat) :
    (∀ p e dp, mem_store (DutiesStore.prune store E) p e dp → E ≤ e)
    ∧ (∀ p e dp, e < E → ¬ mem_store (DutiesStore.prune store E) p e dp)
    ∧ (∀ pv ∈ DutiesStore.prune store E, ¬ pv.2 = ([] : List (Nat × DutyAndProof)))
    ∧ (∀ p e dp, E ≤ e →
        (mem_store (DutiesStore.prune store E) p e dp ↔ mem_store store p e dp)) := by
  refine ⟨?_, ?_, ?_, ?_⟩
  · intro p e dp h
    exact ((mem_store_prune store E p e dp).mp h).2
  · intro p e dp hlt h
    exact absurd ((mem_store_prune store E p e dp).mp h).2 (Nat.not_le_of_lt hlt)
  · intro pv hpv hnil
    unfold DutiesStore.prune at hpv
    rw [List.mem_filter] at hpv
    obtain ⟨_, hne⟩ := hpv
    rw [hnil] at hne
    simp at hne
  · intro p e dp hle
    constructor
    · intro h
      exact ((mem_store_prune store E p e dp).mp h).1
    · intro h
      exact (mem_store_prune store E p e dp).mpr ⟨h, hle⟩

/-- Filtering on a bound of zero keeps every entry. -/
theorem filter_zero_le (l : List (Nat × DutyAndProof)) :
    l.filter (fun ed => decide (0 ≤ ed.1)) = l := by
  induction l with
  | nil => rfl
  | cons a rest ih =>
    rw [List.filter_cons]
    simp [Nat.zero_le, ih]

/-- Pruning below zero changes nothing on a store without empty inner
mappings. -/
theorem prune_zero (s : BaseHashMap)
    (h : ∀ pv ∈ s, ¬ pv.2 = ([] : List (Nat × DutyAndProof))) :
    DutiesStore.prune s 0 = s := by
  unfold DutiesStore.prune
  have hmap : (s.map fun pv => (pv.1, pv.2.filter fun ed => decide (0 ≤ ed.1))) = s := by
    have heach : ∀ pv ∈ s,
        (fun pv => (pv.1, pv.2.filter fun ed => decide ((0 : Nat) ≤ ed.1))) pv = id pv := by
      intro pv _
      show (pv.1, pv.2.filter fun ed => decide ((0 : Nat) ≤ ed.1)) = pv
      rw [filter_zero_le, Prod.mk.eta]
    rw [List.map_congr_left heach, List.map_id]
  rw [hmap, List.filter_eq_self]
  intro pv hpv
  cases hp2 : pv.2 with
  | nil => exact absurd hp2 (h pv hpv)
  | cons a l => rfl

/-- C7: on an epoch-boundary tick whose epoch is below PRUNE_DEPTH, the
saturating subtraction epoch - PRUNE_DEPTH yields zero and the prune phase
of do_update removes nothing. -/
theorem c7_prune_underflow (store : BaseHashMap) (slot spe : Nat)
    (hfirst : slot % spe = 0)
    (hlow : slotEpoch slot spe < PRUNE_DEPTH)
    (hne : ∀ pv ∈ store, ¬ pv.2 = ([] : List (Nat × DutyAndProof))) :
    epochSub (slotEpoch slot spe) PRUNE_DEPTH = 0
    ∧ do_update_prune store slot spe = store := by
  have h0 : epochSub (slotEpoch slot spe) PRUNE_DEPTH = 0 :=
    Nat.sub_eq_zero_of_le (Nat.le_of_lt hlow)
  refine ⟨h0, ?_⟩
  unfold do_update_prune
  rw [if_pos hfirst, h0]
  exact prune_zero store hne

/-- insert preserves the epoch-consistency invariant. -/
theorem insert_preserves_wf (spe : Nat) (store : BaseHashMap) (epoch : Nat)
    (d : DutyAndProof) (vs : ValidatorStore) (hwf : store_wf spe store) :
    store_wf spe (DutiesStore.insert store epoch d spe vs).2 := by
  unfold DutiesStore.insert
  by_cases hmatch : duties_match_epoch d.duty epoch spe = true
  case neg =>
    rw [Bool.not_eq_true] at hmatch
    simp only [hmatch, Bool.not_false, if_true]
    exact hwf
  case pos =>
    simp only [hmatch, Bool.not_true, Bool.false_eq_true, if_false]
    cases hpk : lookupKey d.duty.validator_pubkey store with
    | some vmap =>
      dsimp only
      have hvm_mem : (d.duty.validator_pubkey, vmap) ∈ store := lookupKey_mem _ _ _ hpk
      cases hep : lookupKey epoch vmap with
      | some known =>
        dsimp only
        by_cases hkd : known.duty = d.duty
        · rw [if_pos hkd]
          exact hwf
        · rw [if_neg hkd]
          cases hc : compute_selection_proof vs d with
          | error e => exact hwf
          | ok d' =>
            dsimp only
            have hd : d'.duty = d.duty := compute_selection_proof_duty vs d d' hc
            intro pv hpv ed hed
            rcases mem_updateKey _ _ _ _ hpv with hx | hx
            · subst hx
              rcases mem_updateKey _ _ _ _ hed with hy | hy
              · subst hy
                simpa [hd] using hmatch
              · exact hwf _ hvm_mem _ hy
            · exact hwf _ hx _ hed
      | none =>
        dsimp only
        cases hc : compute_selection_proof vs d with
        | error e => exact hwf
        | ok d' =>
          dsimp only
          have hd : d'.duty = d.duty := compute_selection_proof_duty vs d d' hc
          intro pv hpv ed hed
          rcases mem_updateKey _ _ _ _ hpv with hx | hx
          · subst hx
            rcases List.mem_append.mp hed with hy | hy
            · exact hwf _ hvm_mem _ hy
            · have hy2 : ed = (epoch, d') := List.mem_singleton.mp hy
              subst hy2
              simpa [hd] using hmatch
          · exact hwf _ hx _ hed
    | none =>
      dsimp only
      cases hc : compute_selection_proof vs d with
      | error e => exact hwf
      | ok d' =>
        dsimp only
        have hd : d'.duty = d.duty := compute_selection_proof_duty vs d d' hc
        intro pv hpv ed hed
        rcases List.mem_append.mp hpv with hx | hx
        · exact hwf _ hx _ hed
        · have hx2 : pv = (d'.duty.validator_pubkey, [(epoch, d')]) :=
            List.mem_singleton.mp hx
          subst hx2
          have hy2 : ed = (epoch, d') := List.mem_singleton.mp hed
          subst hy2
          simpa [hd] using hmatch

/-- prune preserves the epoch-consistency invariant. -/
theorem prune_preserves_wf (spe prior_to : Nat) (store : BaseHashMap)
    (hwf : store_wf spe store) : store_wf spe (DutiesStore.prune store prior_to) := by
  intro pv hpv ed hed
  unfold DutiesStore.prune at hpv
  rw [List.mem_filter] at hpv
  obtain ⟨hmap, _⟩ := hpv
  rw [List.mem_map] at hmap
  obtain ⟨pv0, hpv0, hmk⟩ := hmap
  rw [← hmk] at hed
  have hed0 : ed ∈ pv0.2 := (List.mem_filter.mp hed).1
  exact hwf pv0 hpv0 ed hed0

/-- Any sequence of operations from the empty store keeps the invariant. -/
theorem foldl_wf (spe : Nat) (ops : List StoreOp) :
    ∀ s : BaseHashMap, store_wf spe s → store_wf spe (ops.foldl (applyOp spe) s) := by
  induction ops with
  | nil =>
    intro s h
    exact h
  | cons op rest ih =>
    intro s h
    rw [List.foldl_cons]
    refine ih _ ?_
    cases op with
    | insertOp epoch d vs => exact insert_preserves_wf spe s epoch d vs h
    | pruneOp p => exact prune_preserves_wf spe p s h

/-- C4: epoch consistency of every reachable store: any entry of a store
built by inserts and prunes from the empty store matches its epoch key: the
attestation slot, when present, lies in that epoch, and so does every block
proposal slot. -/
theorem c4_reachable_epoch_consistency (spe : Nat) (ops : List StoreOp)
    (pv : Nat × List (Nat × DutyAndProof))
    (hpv : pv ∈ ops.foldl (applyOp spe) [])
    (ed : Nat × DutyAndProof) (hed : ed ∈ pv.2) :
    duties_match_epoch (ed.2).duty ed.1 spe = true
    ∧ (∀ sl, (ed.2).duty.attestation_slot = some sl → slotEpoch sl spe = ed.1)
    ∧ (∀ sl ∈ (ed.2).duty.block_proposal_slots, slotEpoch sl spe = ed.1) := by
  have hwf : store_wf spe (ops.foldl (applyOp spe) []) :=
    foldl_wf spe ops [] (fun q hq => absurd hq (List.not_mem_nil q))
  have hm := hwf pv hpv ed hed
  refine ⟨hm, ?_, ?_⟩
  · intro sl hsl
    unfold duties_match_epoch at hm
    rw [Bool.and_eq_true] at hm
    have h1 := hm.1
    rw [hsl] at h1
    exact of_decide_eq_true h1
  · intro sl hsl
    unfold duties_match_epoch at hm
    rw [Bool.and_eq_true] at hm
    have h2 := List.all_eq_true.mp hm.2 sl hsl
    exact of_decide_eq_true h2

/-- C8 counterexample: a tick at slot 640 (the first slot of epoch 20) with
the beacon head at epoch 17 and allow_unsynced_beacon_node false makes no
get_duties call and logs the not-synced error, yet the store is changed by
that tick, because the epoch-boundary prune runs before the sync check: the
entry at epoch 10 is removed. -/
theorem c8_counterexample :
    slotEpoch 544 32 + 1 < slotEpoch 640 32
    ∧ do_update_tick c8_store 640 32 544 false c8_vs c8_fetch = ([], [], true)
    ∧ ¬ (do_update_tick c8_store 640 32 544 false c8_vs c8_fetch).1 = c8_store := by
  refine ⟨by decide, by decide, by decide⟩

/-- C8 amended: on an unsynced tick (head epoch more than one behind, flag
false) no get_duties call is made, the not-synced error is logged, and the
store undergoes exactly the epoch-boundary prune that precedes the sync
check, hence is unchanged whenever the slot is not the first of its epoch;
with the flag true the tick fetches duties for the current epoch and the
next one regardless of the head epoch. -/
theorem c8_do_update_unsynced (store : BaseHashMap) (slot spe head_slot : Nat)
    (vs : ValidatorStore) (fetch : Nat → List ValidatorDuty)
    (h : slotEpoch head_slot spe + 1 < slotEpoch slot spe) :
    do_update_tick store slot spe head_slot false vs fetch
        = (do_update_prune store slot spe, [], true)
    ∧ (¬ slot % spe = 0 → do_update_prune store slot spe = store)
    ∧ (∀ hs : Nat, (do_update_tick store slot spe hs true vs fetch).2.1
        = [slotEpoch slot spe, slotEpoch slot spe + 1]) := by
  refine ⟨?_, ?_, ?_⟩
  · simp only [do_update_tick]
    rw [if_pos ⟨h, trivial⟩]
  · intro hns
    unfold do_update_prune
    rw [if_neg hns]
  · intro hs
    simp only [do_update_tick]
    rw [if_neg (fun hc => Bool.noConfusion hc.2)]

/-- C1: update_epoch emits is_aggregator from its local pre-insert copy of
the duties, whose selection_proof is always none after conversion, so the
flag is false even though the stored DutyAndProof holds a selection proof:
inserting a fresh aggregator duty (modulo and slot present, the validator
store returns proof 7, is_aggregator_from_modulo true) stores
selection_proof = some 7 but the emitted subscription carries
is_aggregator = false, contradicting the claim that the flag equals
selection_proof.is_some of the stored DutyAndProof. -/
theorem c1_is_aggregator_bug :
    (update_epoch_step [] 10 8 c1_vs c1_duty).2
      = some { validator_index := 0, attestation_committee_index := 0, slot := 83,
               is_aggregator := false }
    ∧ lookupKey 1 (update_epoch_step [] 10 8 c1_vs c1_duty).1
      = some [(10, { duty := c1_duty, selection_proof := some 7 })] := by
  refine ⟨by decide, by decide⟩

/-- Witness for c2_insert_replaced at a concrete replacement: same pubkey
and epoch, changed attestation_slot. -/
theorem c2_witness :
    DutiesStore.insert c2_store 0 c2_new 8 c2_vs
      = (.ok (.Replaced (subscription_eq c2_new c2_known)),
         updateKey c2_new.duty.validator_pubkey (updateKey 0 c2_new [(0, c2_known)]) c2_store) :=
  (c2_insert_replaced c2_store 0 c2_new c2_known [(0, c2_known)] 8 c2_vs c2_new
    (by decide) (by decide) (by decide) (by decide) rfl).1

/-- Witness for c3_subscription_predicate on a fresh validator. -/
theorem c3_witness :
    (update_epoch_step [] 0 8 c3_vs c3_duty).2.isSome = true ↔
      (InsertOutcome.is_subscription_candidate .NewValidator = true
       ∧ c3_duty.validator_index.isSome = true
       ∧ c3_duty.attestation_committee_index.isSome = true
       ∧ c3_duty.attestation_slot.isSome = true) :=
  c3_subscription_predicate [] 0 8 c3_vs c3_duty .NewValidator
    [(5, [(0, { duty := c3_duty, selection_proof := none })])] rfl

/-- Witness for c4_reachable_epoch_consistency after one insert. -/
theorem c4_witness :
    duties_match_epoch c4_dp.duty 0 8 = true :=
  (c4_reachable_epoch_consistency 8 [StoreOp.insertOp 0 c4_dp c4_vs]
    (7, [(0, c4_dp)]) (by decide) (0, c4_dp) (by decide)).1

/-- Witness for c5_insert_idempotent: the repeated insert of the same duty
returns Identical, even against a different validator store. -/
theorem c5_witness :
    DutiesStore.insert [(6, [(0, c5_dp)])] 0 c5_dp 8 c5_vs2
      = (.ok .Identical, [(6, [(0, c5_dp)])]) :=
  c5_insert_idempotent [] 0 c5_dp 8 c5_vs .NewValidator [(6, [(0, c5_dp)])] rfl
    (by decide) c5_vs2

/-- Witness for c6_prune_spec: the epoch-3 entry survives a prune below 2. -/
theorem c6_witness :
    mem_store (DutiesStore.prune [(8, [(3, c6_dp)])] 2) 8 3 c6_dp :=
  ((c6_prune_spec [(8, [(3, c6_dp)])] 2).2.2.2 8 3 c6_dp (by decide)).mpr
    ⟨[(3, c6_dp)], by decide, by decide⟩

/-- Witness for c7_prune_underflow at slot 64 with 32 slots per epoch
(epoch 2, below PRUNE_DEPTH). -/
theorem c7_witness :
    epochSub (slotEpoch 64 32) PRUNE_DEPTH = 0
    ∧ do_update_prune [(9, [(2, c7_dp)])] 64 32 = [(9, [(2, c7_dp)])] :=
  c7_prune_underflow [(9, [(2, c7_dp)])] 64 32 (by decide) (by decide) (by decide)

/-- Witness for c8_do_update_unsynced on an empty store at the same
unsynced tick. -/
theorem c8_witness :
    do_update_tick [] 640 32 544 false c8_vs c8_fetch
      = (do_update_prune [] 640 32, [], true) :=
  (c8_do_update_unsynced [] 640 32 544 c8_vs c8_fetch (by decide)).1

/-- Witness for c9_compute_selection_proof_spec on an elected aggregator. -/
theorem c9_witness :
    (({ duty := c9_dp.duty, selection_proof := some 9 } : DutyAndProof).selection_proof.isSome
        = true ↔
      ∃ m sl sp, c9_dp.duty.aggregator_modulo = some m ∧ c9_dp.duty.attestation_slot = some sl
        ∧ c9_vs.produce_selection_proof c9_dp.duty.validator_pubkey sl = some sp
        ∧ c9_vs.is_aggregator_from_modulo sp m = Except.ok true)
    ∧ ((c9_dp.duty.aggregator_modulo = none ∨ c9_dp.duty.attestation_slot = none) →
        ∀ vs' : ValidatorStore,
          compute_selection_proof vs' c9_dp = .ok { c9_dp with selection_proof := none }) :=
  c9_compute_selection_proof_spec c9_vs c9_dp
    { duty := c9_dp.duty, selection_proof := some 9 } rfl

/-- Witness for c10_insert_atomic_on_error: an insert that fails on an
unknown pubkey leaves the empty store empty. -/
theorem c10_witness :
    DutiesStore.insert [] 0 c10_dp 8 c10_vs
      = (.error ("Validator pubkey missing from store"), [])
    ∧ ([] : BaseHashMap) = [] :=
  ⟨rfl, c10_insert_atomic_on_error [] 0 c10_dp 8 c10_vs
    ("Validator pubkey missing from store") [] rfl⟩

end Duties
